import Mathlib

/-!
# Verification of the tea-backend-challenge ranking/caching core

Shallow embedding of the score model (`src/utils/scoreCalculator.ts`), the
mutation protocol (`src/services/PostService.ts`), the hot-post ranking set,
hybrid first page and versioned feed cache (`src/services/RedisPostService.ts`),
together with proofs of the frozen claims about them.

JavaScript `number` values that can be NaN or ±Infinity are modelled by the
inductive type `JSNum` (a real number or one of the three special values);
plain real arithmetic is used where the source can only produce finite values.
Database/cache identities are modelled as naturals, timestamps as integers
(milliseconds), and the post `score` column is a type parameter `σ` with a
linear order so that the feed layer (instantiated at `ℚ` for executable
witnesses) and the score model (valued in `ℝ`) share one embedding.
-/

/-- The scoring algorithms of `src/types/scoring.ts` (the variant actually
imported by `scoreCalculator.ts`: LOGARITHMIC / LINEAR / SQUARE_ROOT; the
spec's BASE algorithm is LOGARITHMIC). -/
inductive ScoringAlgorithm
  | logarithmic
  | linear
  | square_root
  deriving DecidableEq, Repr

/-- `ScoringConfig` from `src/types/scoring.ts`. -/
structure ScoringConfig where
  algorithm : ScoringAlgorithm
  freshnessWeight : ℝ
  maxAgeHours : ℝ

/-- `DEFAULT_SCORING_CONFIG` from `src/types/scoring.ts`:
logarithmic algorithm, freshnessWeight 1.0, maxAgeHours 168. -/
def DEFAULT_SCORING_CONFIG : ScoringConfig :=
  { algorithm := ScoringAlgorithm.logarithmic
    freshnessWeight := 1
    maxAgeHours := 168 }

/-- A JavaScript `number`: a finite real, `NaN`, `+Infinity` or `-Infinity`. -/
inductive JSNum
  | finite (x : ℝ)
  | nan
  | posInf
  | negInf

namespace JSNum

/-- JavaScript `Math.max(0, x)`: `NaN` if `x` is `NaN` (Math.max propagates
NaN), `+Infinity` stays, `-Infinity` and negative reals clamp to `0`. -/
def max0 : JSNum → JSNum
  | finite x => finite (max 0 x)
  | nan => nan
  | posInf => posInf
  | negInf => finite 0

/-- JavaScript `+` on numbers (the cases defined by IEEE-754). -/
def add : JSNum → JSNum → JSNum
  | nan, _ => nan
  | _, nan => nan
  | finite x, finite y => finite (x + y)
  | finite _, posInf => posInf
  | finite _, negInf => negInf
  | posInf, finite _ => posInf
  | posInf, posInf => posInf
  | posInf, negInf => nan
  | negInf, finite _ => negInf
  | negInf, posInf => nan
  | negInf, negInf => negInf

/-- JavaScript `*` on numbers (the cases defined by IEEE-754; signed zero is
collapsed onto the single real `0`, which only matters for products with an
infinity, where the result is `NaN` exactly when the finite factor is `0`). -/
noncomputable def mul : JSNum → JSNum → JSNum
  | nan, _ => nan
  | _, nan => nan
  | finite x, finite y => finite (x * y)
  | finite x, posInf => if x = 0 then nan else if 0 < x then posInf else negInf
  | finite x, negInf => if x = 0 then nan else if 0 < x then negInf else posInf
  | posInf, finite x => if x = 0 then nan else if 0 < x then posInf else negInf
  | posInf, posInf => posInf
  | posInf, negInf => negInf
  | negInf, finite x => if x = 0 then nan else if 0 < x then negInf else posInf
  | negInf, posInf => negInf
  | negInf, negInf => posInf

/-- JavaScript `Math.log10`: `NaN` below zero, `-Infinity` at zero, the real
base-10 logarithm on positive reals, `+Infinity` at `+Infinity`. -/
noncomputable def log10 : JSNum → JSNum
  | finite x => if x < 0 then nan else if x = 0 then negInf else finite (Real.logb 10 x)
  | nan => nan
  | posInf => posInf
  | negInf => nan

/-- JavaScript `Math.sqrt`: `NaN` below zero and at `-Infinity`. -/
noncomputable def sqrt : JSNum → JSNum
  | finite x => if x < 0 then nan else finite (Real.sqrt x)
  | nan => nan
  | posInf => posInf
  | negInf => nan

/-- JavaScript `<` on numbers: false whenever one side is `NaN`. -/
def lt : JSNum → JSNum → Prop
  | nan, _ => False
  | _, nan => False
  | finite x, finite y => x < y
  | finite _, posInf => True
  | finite _, negInf => False
  | posInf, _ => False
  | negInf, negInf => False
  | negInf, _ => True

end JSNum

/-- `ScoreCalculator.calculateRelevanceScore` (`scoreCalculator.ts:62-85`):
`safeLikeCount = Math.max(0, likeCount)`, then `log10(safeLikeCount + 1)` for
LOGARITHMIC, `safeLikeCount * 0.1` for LINEAR, `sqrt(safeLikeCount)` for
SQUARE_ROOT. -/
noncomputable def calculateRelevanceScore (likeCount : JSNum) (algorithm : ScoringAlgorithm) :
    JSNum :=
  let safeLikeCount := likeCount.max0
  match algorithm with
  | ScoringAlgorithm.logarithmic => (safeLikeCount.add (JSNum.finite 1)).log10
  | ScoringAlgorithm.linear => safeLikeCount.mul (JSNum.finite (1 / 10))
  | ScoringAlgorithm.square_root => safeLikeCount.sqrt

/-- `ScoreCalculator.calculateFreshnessScore` (`scoreCalculator.ts:93-105`):
`safeAge = Math.max(0, ageInHours)`; `0` once `safeAge >= maxAgeHours`, else
`exp(-(ln 2 / 24) * safeAge)`.  The age inputs reaching it are finite reals. -/
noncomputable def calculateFreshnessScore (ageInHours maxAgeHours : ℝ) : ℝ :=
  let safeAge := max 0 ageInHours
  if maxAgeHours ≤ safeAge then 0
  else Real.exp (-(Real.log 2 / 24) * safeAge)

/-- `ScoreCalculator.calculateScore` (`scoreCalculator.ts:22-54`):
`ageInHours = (now - createdAt) / (1000*60*60)` (timestamps in milliseconds),
`finalScore = relevanceScore + freshnessWeight * freshnessScore`.  The
returned value is the `finalScore` field of the `PostScore` record. -/
noncomputable def calculateScore (likeCount : JSNum) (createdAtMs nowMs : ℝ)
    (config : ScoringConfig) : JSNum :=
  let ageInHours := (nowMs - createdAtMs) / (1000 * 60 * 60)
  let relevanceScore := calculateRelevanceScore likeCount config.algorithm
  let freshnessScore := calculateFreshnessScore ageInHours config.maxAgeHours
  relevanceScore.add ((JSNum.finite config.freshnessWeight).mul (JSNum.finite freshnessScore))

/-- `SortOption` from `src/types/scoring.ts`. -/
inductive SortOption
  | relevance
  | freshness
  | createdAt
  | likeCount
  deriving DecidableEq, Repr

/-- `SortOrder` from `src/types/scoring.ts`. -/
inductive SortOrder
  | asc
  | desc
  deriving DecidableEq, Repr

/-- A document of the `posts` collection (`src/models/Post.ts`); title/content
and the author are opaque to the claims and elided, identities are naturals,
`createdAt` is a millisecond timestamp.  The `score` column has type `σ`
(instantiated at `ℚ` for executable witnesses, `ℝ` when compared with the
score model). -/
structure Post (σ : Type) where
  id : ℕ
  categoryId : ℕ
  likeCount : ℤ
  score : σ
  createdAt : ℤ
  deriving DecidableEq, Repr

/-- A document of the `categories` collection (`src/models/Category.ts`);
only the fields the claims touch. -/
structure Category where
  id : ℕ
  isActive : Bool
  deriving DecidableEq, Repr

/-- The authoritative MongoDB store: the `posts`, `categories` and `likes`
collections.  A like is the pair (userId, postId); the unique compound index
of `src/models/Like.ts:87` makes the pair a set-like identity. -/
structure DBState (σ : Type) where
  posts : List (Post σ)
  categories : List Category
  likes : List (ℕ × ℕ)
  deriving DecidableEq

/-- `PostFilters` from `src/services/PostService.ts`. -/
structure PostFilters where
  categoryId : Option ℕ := none
  sortBy : Option SortOption := none
  order : Option SortOrder := none
  deriving DecidableEq, Repr

/-- `PaginationOptions` from `src/services/PostService.ts`; the numeric
fields are modelled as integers. -/
structure PaginationOptions where
  page : Option ℤ := none
  limit : Option ℤ := none
  offset : Option ℤ := none
  deriving DecidableEq, Repr

/-- `PaginationResult` from `src/services/PostService.ts`. -/
structure PaginationResult where
  page : ℤ
  limit : ℤ
  offset : ℤ
  total : ℤ
  totalPages : ℤ
  hasNext : Bool
  hasPrevious : Bool
  nextOffset : Option ℤ
  prevOffset : Option ℤ
  deriving DecidableEq, Repr

/-- `PostsResult` from `src/services/PostService.ts`. -/
structure PostsResult (σ : Type) where
  posts : List (Post σ)
  pagination : PaginationResult
  deriving DecidableEq

/-- JavaScript `v || d` for an optional numeric `v`: the default applies when
the value is absent or `0` (the only falsy integer). -/
def jsOr (v : Option ℤ) (d : ℤ) : ℤ :=
  match v with
  | none => d
  | some x => if x = 0 then d else x

/-- JavaScript `Math.ceil(a / b)` for `b > 0` and integral operands, as used
for `totalPages`. -/
def jsCeilDiv (a b : ℤ) : ℤ :=
  (a + b - 1) / b

/-- The effective page size of `PostService.getPosts`
(`PostService.ts:413`): `Math.min(100, Math.max(1, pagination.limit || 20))`. -/
def effectiveLimit (limit : Option ℤ) : ℤ :=
  min 100 (max 1 (jsOr limit 20))

/-- The effective page size of `RedisPostService.getHybridFirstPage`
(`RedisPostService.ts:92`), the same expression character for character. -/
def hybridEffectiveLimit (limit : Option ℤ) : ℤ :=
  min 100 (max 1 (jsOr limit 20))

/-- The effective page of `PostService.getPosts` (`PostService.ts:412`):
`Math.max(1, pagination.page || 1)`. -/
def effectivePage (page : Option ℤ) : ℤ :=
  max 1 (jsOr page 1)

/-- The skip offset of `PostService.getPosts` (`PostService.ts:415-418`):
`Math.max(0, pagination.offset || 0)` when an offset was supplied, else
`(page - 1) * limit`. -/
def computeSkipOffset (pagination : PaginationOptions) : ℤ :=
  match pagination.offset with
  | some o => max 0 (if o = 0 then 0 else o)
  | none => (effectivePage pagination.page - 1) * effectiveLimit pagination.limit

/-- The `$match` stage after the category `$lookup`
(`PostService.ts:432-448`): a post passes iff some category document with its
`categoryId` exists and has `isActive: true`. -/
def categoryIsActive (categories : List Category) {σ : Type} (p : Post σ) : Bool :=
  categories.any (fun c => c.id = p.categoryId && c.isActive)

/-- The optional leading `$match` on `categoryId` (`PostService.ts:424-430`). -/
def matchesCategoryFilter {σ : Type} (filters : PostFilters) (p : Post σ) : Bool :=
  match filters.categoryId with
  | none => true
  | some c => p.categoryId = c

/-- A MongoDB sort key: the field together with its direction
(`1` ascending, `-1` descending). -/
inductive SortField
  | score
  | createdAt
  | likeCount
  deriving DecidableEq, Repr

/-- Compare two posts on one sort field. -/
def fieldCmp {σ : Type} [LinearOrder σ] (f : SortField) (a b : Post σ) : Ordering :=
  match f with
  | SortField.score => compare a.score b.score
  | SortField.createdAt => compare a.createdAt b.createdAt
  | SortField.likeCount => compare a.likeCount b.likeCount

/-- Compound-key comparison in MongoDB `$sort` order: `a` may precede `b`.
A direction of `1` sorts ascending, otherwise descending. -/
def sortSpecLE {σ : Type} [LinearOrder σ] : List (SortField × ℤ) → Post σ → Post σ → Bool
  | [], _, _ => true
  | (f, d) :: rest, a, b =>
    match (if d = 1 then fieldCmp f a b else (fieldCmp f a b).swap) with
    | Ordering.lt => true
    | Ordering.gt => false
    | Ordering.eq => sortSpecLE rest a b

/-- Insert into a sorted list (helper of the sort embedding). -/
def insertLE {α : Type} (le : α → α → Bool) (x : α) : List α → List α
  | [] => [x]
  | y :: ys => if le x y then x :: y :: ys else y :: insertLE le x ys

/-- Insertion sort; embeds the store's `$sort` stage (the claims never depend
on how ties are broken, only that the output is a permutation). -/
def sortByLE {α : Type} (le : α → α → Bool) : List α → List α
  | [] => []
  | x :: xs => insertLE le x (sortByLE le xs)

/-- `PostService.buildSortOptions` (`PostService.ts:763-795`): maps the sort
option to a field (relevance/freshness fall back to `createdAt` here), applies
the requested direction, and appends a secondary `createdAt: -1` key when the
primary field is not already `createdAt`. -/
def buildSortOptions (sortBy : Option SortOption) (order : Option SortOrder) :
    List (SortField × ℤ) :=
  let sortDirection : ℤ := if order = some SortOrder.asc then 1 else -1
  let field : SortField :=
    match sortBy with
    | some SortOption.createdAt => SortField.createdAt
    | some SortOption.likeCount => SortField.likeCount
    | some SortOption.relevance => SortField.createdAt
    | some SortOption.freshness => SortField.createdAt
    | none => SortField.createdAt
  if field = SortField.createdAt then [(field, sortDirection)]
  else [(field, sortDirection), (SortField.createdAt, -1)]

/-- `needsScoring` of `PostService.getPosts` (`PostService.ts:454-455`):
the sort is score-based iff it is RELEVANCE or FRESHNESS. -/
def needsScoring (sortBy : Option SortOption) : Bool :=
  sortBy = some SortOption.relevance || sortBy = some SortOption.freshness

namespace PostService

/-- `PostService.getPosts` (`PostService.ts:411-561`): clamp page/limit,
compute the skip offset, filter by the optional category and by
category-is-active (the `$lookup`/`$match` stages), sort (database `score`
column for score-based sorts, `buildSortOptions` otherwise), paginate with
`$skip`/`$limit`, and report the total as the count of the filtered set (the
count pipeline drops only the `$skip`/`$limit` stages). -/
def getPosts {σ : Type} [LinearOrder σ] (db : DBState σ) (filters : PostFilters)
    (pagination : PaginationOptions) : PostsResult σ :=
  let page := effectivePage pagination.page
  let limit := effectiveLimit pagination.limit
  let skipOffset := computeSkipOffset pagination
  let filtered := db.posts.filter
    (fun p => matchesCategoryFilter filters p && categoryIsActive db.categories p)
  let spec :=
    if needsScoring filters.sortBy then
      [(SortField.score, if filters.order = some SortOrder.asc then (1 : ℤ) else -1),
       (SortField.createdAt, -1)]
    else buildSortOptions filters.sortBy filters.order
  let sorted := sortByLE (sortSpecLE spec) filtered
  let posts := (sorted.drop skipOffset.toNat).take limit.toNat
  let total : ℤ := filtered.length
  let currentPage :=
    match pagination.offset with
    | some _ => skipOffset / limit + 1
    | none => page
  let totalPages := jsCeilDiv total limit
  { posts := posts
    pagination :=
      { page := currentPage
        limit := limit
        offset := skipOffset
        total := total
        totalPages := totalPages
        hasNext := skipOffset + limit < total
        hasPrevious := skipOffset > 0
        nextOffset := if skipOffset + limit < total then some (skipOffset + limit) else none
        prevOffset := if skipOffset > 0 then some (max 0 (skipOffset - limit)) else none } }

end PostService

/-- The domain errors thrown by the mutation protocol
(`src/utils/errorMessages.ts` messages used in `PostService.ts`). -/
inductive PostError
  | postNotFound
  | alreadyLiked
  | notLiked
  | failedToUpdateLikeCount
  deriving DecidableEq, Repr

/-- `LikeResult` from `src/services/PostService.ts`. -/
structure LikeResult (σ : Type) where
  liked : Bool
  likeCount : ℤ
  post : Option (Post σ)
  deriving DecidableEq

/-- `Post.findById(postId)`: first (unique) document with the identity. -/
def findPost {σ : Type} (db : DBState σ) (postId : ℕ) : Option (Post σ) :=
  db.posts.find? (fun p => p.id = postId)

/-- `Post.findByIdAndUpdate(postId, { $inc: { likeCount: d } })`: the atomic
increment touches only `likeCount`.  Mongoose runs `pre('save')` middleware
only on `save()`, not on `findByIdAndUpdate`, so the `score` column is NOT
recomputed by this operation (`Post.ts:61-75` registers the score hook on
`save` alone). -/
def incLikeCount {σ : Type} (posts : List (Post σ)) (postId : ℕ) (delta : ℤ) :
    List (Post σ) :=
  posts.map (fun p => if p.id = postId then { p with likeCount := p.likeCount + delta } else p)

namespace PostService

/-- `PostService.likePost`, transactional branch (`PostService.ts:567-614`):
find the post (`PostNotFound` aborts), pre-read the like with
`Like.findOne({userId, postId})` (`AlreadyLiked` aborts), insert the like,
`$inc` the post's `likeCount` by 1, commit.  The returned pair is
(thrown-or-returned value, store state after commit/abort); on any throw the
transaction aborts and the store is the original one.  The non-transactional
branch (`NODE_ENV === 'test'`, `PostService.ts:615-659`) reaches the same
observable outcomes, with `AlreadyLiked` surfaced by the duplicate-key error
of the unique `(userId, postId)` index instead of the pre-read. -/
def likePost {σ : Type} (db : DBState σ) (userId postId : ℕ) :
    Except PostError (LikeResult σ) × DBState σ :=
  match findPost db postId with
  | none => (Except.error PostError.postNotFound, db)
  | some _ =>
    if (userId, postId) ∈ db.likes then (Except.error PostError.alreadyLiked, db)
    else
      let db' : DBState σ :=
        { db with
          likes := db.likes ++ [(userId, postId)]
          posts := incLikeCount db.posts postId 1 }
      let updatedPost := findPost db' postId
      (Except.ok
        { liked := true
          likeCount := (updatedPost.map Post.likeCount).getD 0
          post := updatedPost }, db')

/-- `PostService.unlikePost`, transactional branch (`PostService.ts:666-712`):
find the post (`PostNotFound` aborts), pre-read the like (`NotLiked` aborts
when absent), `Like.deleteOne`, `$inc` the `likeCount` by -1, commit.  As in
`likePost`, the `$inc` bypasses the `pre('save')` score hook.  (Only the
non-transactional branch clamps a negative result to 0.) -/
def unlikePost {σ : Type} (db : DBState σ) (userId postId : ℕ) :
    Except PostError (LikeResult σ) × DBState σ :=
  match findPost db postId with
  | none => (Except.error PostError.postNotFound, db)
  | some _ =>
    if (userId, postId) ∈ db.likes then
      let db' : DBState σ :=
        { db with
          likes := db.likes.erase (userId, postId)
          posts := incLikeCount db.posts postId (-1) }
      let updatedPost := findPost db' postId
      (Except.ok
        { liked := false
          likeCount := (updatedPost.map Post.likeCount).getD 0
          post := updatedPost }, db')
    else (Except.error PostError.notLiked, db)

end PostService

/-- `RedisPostService.CONFIG.MAX_HOT_POSTS_GLOBAL` (`RedisPostService.ts:39`). -/
def MAX_HOT_POSTS_GLOBAL : ℕ := 100

/-- `RedisPostService.CONFIG.MAX_HOT_POSTS_PER_CATEGORY` (`RedisPostService.ts:40`). -/
def MAX_HOT_POSTS_PER_CATEGORY : ℕ := 50

/-- `RedisPostService.CONFIG.MIN_HOT_POST_SCORE` (`RedisPostService.ts:47`).
Redis sorted-set scores are modelled as rationals. -/
def MIN_HOT_POST_SCORE : ℚ := 3

/-- Redis `ZADD key score member` on a sorted set represented as an
association list (member, score): update the member's score if present,
otherwise add the entry. -/
def zadd (s : List (ℕ × ℚ)) (score : ℚ) (member : ℕ) : List (ℕ × ℚ) :=
  if s.any (fun e => e.1 = member) then
    s.map (fun e => if e.1 = member then (member, score) else e)
  else s ++ [(member, score)]

/-- Redis `ZREM key member`. -/
def zrem (s : List (ℕ × ℚ)) (member : ℕ) : List (ℕ × ℚ) :=
  s.filter (fun e => e.1 ≠ member)

/-- Descending ranking order of a Redis sorted set: higher score first, ties
by member (Redis breaks score ties lexicographically on the member). -/
def zDescLE (a b : ℕ × ℚ) : Bool :=
  if a.2 = b.2 then decide (b.1 ≤ a.1) else decide (b.2 < a.2)

/-- Redis `ZREMRANGEBYRANK key 0 -(n+1)`: remove every entry except the `n`
highest-ranked ones, i.e. keep the top `n` by (score, member); a no-op on the
membership when the set already has at most `n` entries. -/
def ztrimTop (s : List (ℕ × ℚ)) (n : ℕ) : List (ℕ × ℚ) :=
  (sortByLE zDescLE s).take n

/-- One scope's part of `RedisPostService.updateHotPostRankings`
(`RedisPostService.ts:361-404`): if the score reaches
`MIN_HOT_POST_SCORE`, `zadd` then trim to the scope's maximum size;
otherwise `zrem` the post from the scope. -/
def updateScopeRanking (maxSize : ℕ) (s : List (ℕ × ℚ)) (postId : ℕ) (score : ℚ) :
    List (ℕ × ℚ) :=
  if MIN_HOT_POST_SCORE ≤ score then ztrimTop (zadd s score postId) maxSize
  else zrem s postId

/-- The Redis hot-post ranking structures: the global scope and one sorted
set per category scope. -/
structure RankingState where
  global : List (ℕ × ℚ)
  category : ℕ → List (ℕ × ℚ)

/-- `RedisPostService.updateHotPostRankings` (`RedisPostService.ts:361-404`):
one pipelined update of the global scope (bound 100) and the post's category
scope (bound 50). -/
def updateHotPostRankings (st : RankingState) (postId categoryId : ℕ) (score : ℚ) :
    RankingState :=
  { global := updateScopeRanking MAX_HOT_POSTS_GLOBAL st.global postId score
    category := fun c =>
      if c = categoryId then
        updateScopeRanking MAX_HOT_POSTS_PER_CATEGORY (st.category c) postId score
      else st.category c }

/-- The ranking structures before any update (empty sorted sets; an expired
structure is also this state). -/
def emptyRankingState : RankingState :=
  { global := [], category := fun _ => [] }

/-- A sequence of score-affecting mutations applied to the ranking
structures: each element is (postId, categoryId, score). -/
def applyRankingUpdates (st : RankingState) : List (ℕ × ℕ × ℚ) → RankingState
  | [] => st
  | (pid, cid, sc) :: rest => applyRankingUpdates (updateHotPostRankings st pid cid sc) rest

namespace RedisPostService

/-- `RedisPostService.isScoreBasedSort` (`RedisPostService.ts:537-541`). -/
def isScoreBasedSort (sortBy : SortOption) : Bool :=
  sortBy = SortOption.relevance || sortBy = SortOption.freshness

/-- `RedisPostService.buildPostsResult` (`RedisPostService.ts:513-535`). -/
def buildPostsResult {σ : Type} (posts : List (Post σ)) (page limit total : ℤ) :
    PostsResult σ :=
  let totalPages := jsCeilDiv total limit
  let offset := (page - 1) * limit
  { posts := posts
    pagination :=
      { page := page
        limit := limit
        offset := offset
        total := total
        totalPages := totalPages
        hasNext := page < totalPages
        hasPrevious := page > 1
        nextOffset := if page < totalPages then some (offset + limit) else none
        prevOffset := if page > 1 then some (max 0 (offset - limit)) else none } }

/-- `RedisPostService.populateHotPosts` (`RedisPostService.ts:321-330`):
batch-fetch the documents of the given identities, keep the ranking order,
drop identities that are no longer in the store. -/
def populateHotPosts {σ : Type} (db : DBState σ) (postIds : List ℕ) : List (Post σ) :=
  postIds.filterMap (fun i => db.posts.find? (fun p => p.id = i))

/-- `RedisPostService.getRegularPosts` (`RedisPostService.ts:332-359`): query
the store for `limit * 2` posts (page 1), drop those whose identity is in
`excludeIds`, keep the first `limit`; the reported total is
`max 0 (storeTotal - excludeIds.length)`. -/
def getRegularPosts {σ : Type} [LinearOrder σ] (db : DBState σ) (filters : PostFilters)
    (limit : ℤ) (excludeIds : List ℕ) : PostsResult σ :=
  let result := PostService.getPosts db filters
    { page := some 1, limit := some (limit * 2), offset := none }
  let filteredPosts :=
    (result.posts.filter (fun p => decide (p.id ∉ excludeIds))).take limit.toNat
  { posts := filteredPosts
    pagination :=
      { result.pagination with total := max 0 (result.pagination.total - excludeIds.length) } }

/-- `RedisPostService.getHybridFirstPage` (`RedisPostService.ts:88-128`).
`hotIdsRes` is the outcome of the Ranking Set read
(`zrevrange(key, 0, limit-1)` in `getHotPosts`); `.error` stands for any
failure inside the `try`, on which the whole page falls back to the direct
store query. -/
def getHybridFirstPage {σ : Type} [LinearOrder σ] (hotIdsRes : Except Unit (List ℕ))
    (db : DBState σ) (filters : PostFilters) (pagination : PaginationOptions) :
    PostsResult σ :=
  let limit := hybridEffectiveLimit pagination.limit
  match hotIdsRes with
  | Except.error _ => PostService.getPosts db filters pagination
  | Except.ok hotPostIds =>
    if limit ≤ (hotPostIds.length : ℤ) then
      let hotPosts := populateHotPosts db (hotPostIds.take limit.toNat)
      buildPostsResult hotPosts 1 limit hotPostIds.length
    else
      let remainingLimit := limit - hotPostIds.length
      let regularPosts := getRegularPosts db filters remainingLimit hotPostIds
      let hotPosts := populateHotPosts db hotPostIds
      buildPostsResult (hotPosts ++ regularPosts.posts) 1 limit
        (hotPostIds.length + regularPosts.pagination.total)

/-- The Redis operations one `getCachedPosts` call performs, each fallible
(`.error` = the awaited command rejected).  `cacheGet` is indexed by the feed
version because the cache key embeds it; the remaining key parts (scope, sort
field, order) are fixed within one call. -/
structure RedisOracle (σ : Type) where
  versionRead : Except Unit (Option ℕ)
  versionInit : Except Unit Unit
  cacheGet : ℕ → Except Unit (Option (PostsResult σ))
  cachePut : Except Unit Unit

/-- `RedisPostService.getFeedVersion` (`RedisPostService.ts:51-62`): read the
scope's version counter; if absent, initialize it to 1 and use 1; on any
redis error, degrade to version 1 (never fail the read). -/
def getFeedVersion {σ : Type} (o : RedisOracle σ) : ℕ :=
  match o.versionRead with
  | Except.error _ => 1
  | Except.ok (some v) => v
  | Except.ok none => 1

/-- The window-slicing step of a cache hit (`RedisPostService.ts:148-185`):
filter the cached window by the requested category, and serve the requested
page by slicing when the window covers it; `none` = treat as a miss.
`requestedLimit` is `pagination.limit || parsed.pagination.limit || 20` and
`requestedPage` is `pagination.page || 1`. -/
def cacheSlice {σ : Type} (parsed : Option (PostsResult σ)) (filters : PostFilters)
    (pagination : PaginationOptions) : Option (PostsResult σ) :=
  match parsed with
  | none => none
  | some r =>
    let requestedLimit := jsOr pagination.limit (jsOr (some r.pagination.limit) 20)
    let requestedPage := jsOr pagination.page 1
    let availablePosts :=
      match filters.categoryId with
      | some c => r.posts.filter (fun p : Post σ => decide (p.categoryId = c))
      | none => r.posts
    let offset := (requestedPage - 1) * requestedLimit
    if offset + requestedLimit ≤ (availablePosts.length : ℤ) then
      let total := r.pagination.total
      let totalPages := jsCeilDiv total requestedLimit
      some
        { posts := (availablePosts.drop offset.toNat).take requestedLimit.toNat
          pagination :=
            { page := requestedPage
              limit := requestedLimit
              offset := offset
              total := total
              totalPages := totalPages
              hasNext := requestedPage < totalPages
              hasPrevious := requestedPage > 1
              nextOffset := if requestedPage < totalPages then some (offset + requestedLimit) else none
              prevOffset := if requestedPage > 1 then some (max 0 (offset - requestedLimit)) else none } }
    else none

/-- `RedisPostService.getCachedPosts` (`RedisPostService.ts:130-198`): read
the scope's version (degrading to 1 on error), read the cache entry for that
version; on a servable hit return the slice; otherwise query the store,
write the cache entry, and return the store result.  Any redis rejection
inside the `try` is caught and answered by the direct store query. -/
def getCachedPosts {σ : Type} [LinearOrder σ] (o : RedisOracle σ) (db : DBState σ)
    (filters : PostFilters) (pagination : PaginationOptions) : PostsResult σ :=
  let version := getFeedVersion o
  match o.cacheGet version with
  | Except.error _ => PostService.getPosts db filters pagination
  | Except.ok cached =>
    match cacheSlice cached filters pagination with
    | some served => served
    | none =>
      let result := PostService.getPosts db filters pagination
      match o.cachePut with
      | Except.error _ => PostService.getPosts db filters pagination
      | Except.ok _ => result

/-- `RedisPostService.getPosts` (`RedisPostService.ts:74-86`): page 1 of a
score-based sort (default sort RELEVANCE) goes to the hybrid assembler,
everything else to the versioned cache path. -/
def getPosts {σ : Type} [LinearOrder σ] (o : RedisOracle σ)
    (hotIdsRes : Except Unit (List ℕ)) (db : DBState σ) (filters : PostFilters)
    (pagination : PaginationOptions) : PostsResult σ :=
  let page := jsOr pagination.page 1
  let sortBy := filters.sortBy.getD SortOption.relevance
  if page = 1 && isScoreBasedSort sortBy then
    getHybridFirstPage hotIdsRes db filters pagination
  else getCachedPosts o db filters pagination

/-- `RedisPostService.likePost` (`RedisPostService.ts:200-238`): before the
database mutation, read the `user_like:{postId}:{userId}` cache key;
`.ok true` (key present) throws `AlreadyLiked` without touching the store;
`.ok false` (absent) and `.error` (redis unreachable, non-fatal) both fall
through to `PostService.likePost`.  The post-success redis writes (marker
key, rankings, version bumps) do not touch the Mongo store. -/
def likePost {σ : Type} (cacheCheck : Except Unit Bool) (db : DBState σ)
    (userId postId : ℕ) : Except PostError (LikeResult σ) × DBState σ :=
  match cacheCheck with
  | Except.ok true => (Except.error PostError.alreadyLiked, db)
  | Except.ok false => PostService.likePost db userId postId
  | Except.error _ => PostService.likePost db userId postId

end RedisPostService

/-- The real value of a finite JS number (the numeric value Mongoose persists
for a finite score); the non-finite values are irrelevant defaults. -/
def JSNum.toReal : JSNum → ℝ
  | JSNum.finite x => x
  | _ => 0

/-- Failing input for the like/score invariant: one post (id 1, category 1,
zero likes) whose persisted `score` is exactly the Score Model's output for
`likeCount = 0` at its `createdAt` (as the `pre('save')` hook wrote it when
the post was created), and no likes. -/
noncomputable def staleScoreDB : DBState ℝ :=
  { posts := [{ id := 1, categoryId := 1, likeCount := 0
                score := (calculateScore (JSNum.finite 0) 0 0 DEFAULT_SCORING_CONFIG).toReal
                createdAt := 0 }]
    categories := [{ id := 1, isActive := true }]
    likes := [] }

/-- Fixture: a store with one post (id 1) already liked by user 7. -/
def likedOnceDB : DBState ℚ :=
  { posts := [{ id := 1, categoryId := 1, likeCount := 1, score := 0, createdAt := 0 }]
    categories := [{ id := 1, isActive := true }]
    likes := [(7, 1)] }

/-- Fixture: an active category and a deactivated one, one post in each. -/
def mixedCategoriesDB : DBState ℚ :=
  { posts := [{ id := 1, categoryId := 1, likeCount := 0, score := 0, createdAt := 0 },
              { id := 2, categoryId := 2, likeCount := 0, score := 0, createdAt := 0 }]
    categories := [{ id := 1, isActive := true }, { id := 2, isActive := false }]
    likes := [] }

/-- Fixture for the hybrid 20/5 scenario: 25 posts (ids 1..25) in one active
category; ids 21..25 are the ranked ones. -/
def hybridScenarioDB : DBState ℚ :=
  { posts := (List.range 25).map
      (fun i => { id := i + 1, categoryId := 1, likeCount := 0, score := 0, createdAt := 0 })
    categories := [{ id := 1, isActive := true }]
    likes := [] }

/-- The five ranked identities of the hybrid 20/5 scenario. -/
def hybridScenarioHotIds : List ℕ := [21, 22, 23, 24, 25]

/-- Fixture posts for the cache-layer counterexample: the store holds
`storedPost`, the (stale) cached window holds `cachedPost`. -/
def storedPost : Post ℚ :=
  { id := 1, categoryId := 1, likeCount := 0, score := 0, createdAt := 0 }

/-- See `storedPost`. -/
def cachedPost : Post ℚ :=
  { id := 2, categoryId := 1, likeCount := 0, score := 0, createdAt := 0 }

/-- The store of the cache-layer counterexample: only `storedPost`. -/
def cacheMismatchDB : DBState ℚ :=
  { posts := [storedPost]
    categories := [{ id := 1, isActive := true }]
    likes := [] }

/-- A stale one-post window, as cached under feed version 1. -/
def staleWindow : PostsResult ℚ :=
  { posts := [cachedPost]
    pagination :=
      { page := 1, limit := 1, offset := 0, total := 1, totalPages := 1
        hasNext := false, hasPrevious := false, nextOffset := none, prevOffset := none } }

/-- Oracle of the cache-layer counterexample: the version-counter read
rejects, but the cache entry under the defaulted version 1 is readable and
holds `staleWindow`. -/
def versionFailOracle : RedisPostService.RedisOracle ℚ :=
  { versionRead := Except.error ()
    versionInit := Except.ok ()
    cacheGet := fun v => if v = 1 then Except.ok (some staleWindow) else Except.ok none
    cachePut := Except.ok () }

/-- Oracle whose cache read rejects (for the fallback witness). -/
def cacheGetFailOracle : RedisPostService.RedisOracle ℚ :=
  { versionRead := Except.ok (some 1)
    versionInit := Except.ok ()
    cacheGet := fun _ => Except.error ()
    cachePut := Except.ok () }

theorem mem_insertLE {α : Type} (le : α → α → Bool) (x a : α) (l : List α) :
    a ∈ insertLE le x l ↔ a = x ∨ a ∈ l := by
  induction l with
  | nil => simp [insertLE]
  | cons y ys ih =>
    by_cases h : le x y = true
    · simp [insertLE, h]
    · simp only [insertLE, h, if_neg, Bool.not_eq_true] at *
      simp [List.mem_cons, ih]
      tauto

theorem length_insertLE {α : Type} (le : α → α → Bool) (x : α) (l : List α) :
    (insertLE le x l).length = l.length + 1 := by
  induction l with
  | nil => simp [insertLE]
  | cons y ys ih =>
    by_cases h : le x y = true
    · simp [insertLE, h]
    · simp [insertLE, h, ih]

theorem mem_sortByLE {α : Type} (le : α → α → Bool) (a : α) (l : List α) :
    a ∈ sortByLE le l ↔ a ∈ l := by
  induction l with
  | nil => simp [sortByLE]
  | cons y ys ih => simp [sortByLE, mem_insertLE, ih]

theorem length_sortByLE {α : Type} (le : α → α → Bool) (l : List α) :
    (sortByLE le l).length = l.length := by
  induction l with
  | nil => simp [sortByLE]
  | cons y ys ih => simp [sortByLE, length_insertLE, ih]

theorem mem_zadd (s : List (ℕ × ℚ)) (sc : ℚ) (m : ℕ) (e : ℕ × ℚ) :
    e ∈ zadd s sc m → e = (m, sc) ∨ e ∈ s := by
  unfold zadd
  split
  · intro h
    obtain ⟨a, ha, hfa⟩ := List.mem_map.1 h
    by_cases hm : a.1 = m
    · simp [hm] at hfa
      exact Or.inl hfa.symm
    · simp [hm] at hfa
      exact Or.inr (hfa ▸ ha)
  · intro h
    rcases List.mem_append.1 h with h' | h'
    · exact Or.inr h'
    · simp at h'
      exact Or.inl h'

theorem mem_ztrimTop (s : List (ℕ × ℚ)) (n : ℕ) (e : ℕ × ℚ) :
    e ∈ ztrimTop s n → e ∈ s := by
  intro h
  exact (mem_sortByLE zDescLE e s).1 (List.take_subset _ _ h)

theorem length_ztrimTop (s : List (ℕ × ℚ)) (n : ℕ) : (ztrimTop s n).length ≤ n := by
  simp [ztrimTop]

theorem updateScopeRanking_inv (n : ℕ) (s : List (ℕ × ℚ)) (pid : ℕ) (sc : ℚ)
    (h1 : s.length ≤ n) (h2 : ∀ e ∈ s, MIN_HOT_POST_SCORE ≤ e.2) :
    (updateScopeRanking n s pid sc).length ≤ n
      ∧ ∀ e ∈ updateScopeRanking n s pid sc, MIN_HOT_POST_SCORE ≤ e.2 := by
  unfold updateScopeRanking
  split
  · refine ⟨length_ztrimTop _ _, ?_⟩
    intro e he
    rcases mem_zadd _ _ _ _ (mem_ztrimTop _ _ _ he) with h | h
    · subst h
      assumption
    · exact h2 _ h
  · refine ⟨le_trans (List.length_filter_le _ _) h1, ?_⟩
    intro e he
    exact h2 _ (List.mem_of_mem_filter he)

theorem applyRankingUpdates_inv (ups : List (ℕ × ℕ × ℚ)) :
    ∀ st : RankingState,
      (st.global.length ≤ MAX_HOT_POSTS_GLOBAL
        ∧ (∀ e ∈ st.global, MIN_HOT_POST_SCORE ≤ e.2)
        ∧ ∀ c : ℕ, (st.category c).length ≤ MAX_HOT_POSTS_PER_CATEGORY
            ∧ ∀ e ∈ st.category c, MIN_HOT_POST_SCORE ≤ e.2) →
      ((applyRankingUpdates st ups).global.length ≤ MAX_HOT_POSTS_GLOBAL
        ∧ (∀ e ∈ (applyRankingUpdates st ups).global, MIN_HOT_POST_SCORE ≤ e.2)
        ∧ ∀ c : ℕ, ((applyRankingUpdates st ups).category c).length ≤ MAX_HOT_POSTS_PER_CATEGORY
            ∧ ∀ e ∈ (applyRankingUpdates st ups).category c, MIN_HOT_POST_SCORE ≤ e.2) := by
  induction ups with
  | nil => intro st h; exact h
  | cons u rest ih =>
    intro st h
    obtain ⟨hg1, hg2, hc⟩ := h
    refine ih _ ⟨?_, ?_, ?_⟩
    · exact (updateScopeRanking_inv _ _ _ _ hg1 hg2).1
    · exact (updateScopeRanking_inv _ _ _ _ hg1 hg2).2
    · intro c
      simp only [updateHotPostRankings]
      split
    

      · exact updateScopeRanking_inv _ _ _ _ (hc c).1 (hc c).2
      · exact hc c

/-- C3: after any sequence of ranking-set updates (upserts and demotions
across posts, starting from empty structures), the global scope holds at most
`MAX_HOT_POSTS_GLOBAL = 100` entries, every category scope holds at most
`MAX_HOT_POSTS_PER_CATEGORY = 50` entries, and every entry present in any
scope has a stored score ≥ `MIN_HOT_POST_SCORE`. -/
theorem c3_ranking_bound (ups : List (ℕ × ℕ × ℚ)) :
    ((applyRankingUpdates emptyRankingState ups).global.length ≤ MAX_HOT_POSTS_GLOBAL
      ∧ ∀ e ∈ (applyRankingUpdates emptyRankingState ups).global, MIN_HOT_POST_SCORE ≤ e.2)
    ∧ ∀ c : ℕ,
      ((applyRankingUpdates emptyRankingState ups).category c).length
          ≤ MAX_HOT_POSTS_PER_CATEGORY
        ∧ ∀ e ∈ (applyRankingUpdates emptyRankingState ups).category c,
            MIN_HOT_POST_SCORE ≤ e.2 := by
  have h := applyRankingUpdates_inv ups emptyRankingState
    (by
      refine ⟨by simp [emptyRankingState], by simp [emptyRankingState], ?_⟩
      intro c
      simp [emptyRankingState])
  exact ⟨⟨h.1, h.2.1⟩, h.2.2⟩

/-- Witness for C3 at the single update (post 1, category 2, score 5). -/
theorem c3_ranking_bound_witness :
    (applyRankingUpdates emptyRankingState [(1, 2, 5)]).global.length ≤ MAX_HOT_POSTS_GLOBAL
    ∧ MIN_HOT_POST_SCORE ≤ ((1, (5 : ℚ)) : ℕ × ℚ).2
    ∧ ((applyRankingUpdates emptyRankingState [(1, 2, 5)]).category 2).length
        ≤ MAX_HOT_POSTS_PER_CATEGORY :=
  ⟨(c3_ranking_bound [(1, 2, 5)]).1.1,
   (c3_ranking_bound [(1, 2, 5)]).1.2 (1, (5 : ℚ)) (by decide),
   ((c3_ranking_bound [(1, 2, 5)]).2 2).1⟩

/-- C9: every post returned by the store-path feed read references an
existing category with `isActive = true`, and the reported total counts
exactly the posts passing the category-filter and active-category stages —
posts of missing or deactivated categories are excluded from both. -/
theorem c9_active_category_only {σ : Type} [LinearOrder σ] (db : DBState σ)
    (filters : PostFilters) (pagination : PaginationOptions) :
    (∀ p ∈ (PostService.getPosts db filters pagination).posts,
        ∃ c ∈ db.categories, c.id = p.categoryId ∧ c.isActive = true)
    ∧ (PostService.getPosts db filters pagination).pagination.total =
        ((db.posts.filter
          (fun p => matchesCategoryFilter filters p && categoryIsActive db.categories p)).length : ℤ) := by
  constructor
  · intro p hp
    have hp' : p ∈ db.posts.filter
        (fun p => matchesCategoryFilter filters p && categoryIsActive db.categories p) := by
      simp only [PostService.getPosts] at hp
      exact (mem_sortByLE _ _ _).1 (List.drop_subset _ _ (List.take_subset _ _ hp))
    have hand := (List.mem_filter.1 hp').2
    simp only [Bool.and_eq_true] at hand
    have hact := hand.2
    unfold categoryIsActive at hact
    rw [List.any_eq_true] at hact
    obtain ⟨c, hc, hcp⟩ := hact
    simp only [Bool.and_eq_true, decide_eq_true_eq] at hcp
    exact ⟨c, hc, hcp.1, hcp.2⟩
  · rfl

/-- Witness for C9: in `mixedCategoriesDB` the returned post with id 1 has an
existing active category. -/
theorem c9_active_category_only_witness :
    ∃ c ∈ mixedCategoriesDB.categories,
      c.id = ({ id := 1, categoryId := 1, likeCount := 0, score := 0, createdAt := 0 } :
        Post ℚ).categoryId ∧ c.isActive = true :=
  (c9_active_category_only mixedCategoriesDB {} {}).1
    { id := 1, categoryId := 1, likeCount := 0, score := 0, createdAt := 0 } (by decide)

/-- C10 counterexample: a requested limit of 0 (which is falsy in JavaScript)
is replaced by the default 20 by `pagination.limit || 20`, so a limit below 1
does not always yield the clamped minimum of 1. -/
theorem c10_counterexample : effectiveLimit (some 0) = 20 ∧ effectiveLimit (some 0) ≠ 1 := by
  decide

/-- C10 as amended: the effective page size always lies in [1, 100], the
hybrid first page computes the identical clamp, limits above 100 clamp to
100, and limits below 1 clamp to 1 — except a requested limit of exactly 0,
which (like an absent limit) is falsy and yields the default 20. -/
theorem c10_limit_clamp (l : Option ℤ) :
    (1 ≤ effectiveLimit l ∧ effectiveLimit l ≤ 100)
    ∧ hybridEffectiveLimit l = effectiveLimit l
    ∧ (∀ v : ℤ, 100 < v → effectiveLimit (some v) = 100)
    ∧ (∀ v : ℤ, v < 1 → v ≠ 0 → effectiveLimit (some v) = 1)
    ∧ effectiveLimit (some 0) = 20
    ∧ effectiveLimit none = 20 := by
  refine ⟨?_, rfl, ?_, ?_, by decide, by decide⟩
  · cases l with
    | none => decide
    | some v =>
      by_cases h : v = 0
      · subst h
        decide
      · simp only [effectiveLimit, jsOr, if_neg h]
        omega
  · intro v hv
    have h : v ≠ 0 := by omega
    simp only [effectiveLimit, jsOr, if_neg h]
    omega
  · intro v hv hv0
    simp only [effectiveLimit, jsOr, if_neg hv0]
    omega

/-- Witness for C10 at limits 150, -5 and 0. -/
theorem c10_limit_clamp_witness :
    (1 ≤ effectiveLimit (some 150) ∧ effectiveLimit (some 150) ≤ 100)
    ∧ effectiveLimit (some 150) = 100
    ∧ effectiveLimit (some (-5)) = 1
    ∧ effectiveLimit (some 0) = 20 :=
  ⟨(c10_limit_clamp (some 150)).1,
   (c10_limit_clamp (some 150)).2.2.1 150 (by decide),
   (c10_limit_clamp (some 150)).2.2.2.1 (-5) (by decide) (by decide),
   (c10_limit_clamp (some 150)).2.2.2.2.1⟩

/-- C2: for an existing post, liking an already-liked post returns
`AlreadyLiked` and leaves the whole store (posts, `likeCount`s and the Like
set) unchanged; unliking a not-liked post returns `NotLiked` and likewise
leaves the store unchanged. -/
theorem c2_error_idempotence {σ : Type} (db : DBState σ) (u p : ℕ)
    (hpost : (findPost db p).isSome) :
    ((u, p) ∈ db.likes →
      PostService.likePost db u p = (Except.error PostError.alreadyLiked, db))
    ∧ ((u, p) ∉ db.likes →
      PostService.unlikePost db u p = (Except.error PostError.notLiked, db)) := by
  obtain ⟨q, hq⟩ := Option.isSome_iff_exists.1 hpost
  constructor
  · intro hmem
    simp [PostService.likePost, hq, hmem]
  · intro hmem
    simp [PostService.unlikePost, hq, hmem]

/-- Witness for C2 on `likedOnceDB` (post 1 liked by user 7): user 7 likes
again, user 8 unlikes without having liked. -/
theorem c2_error_idempotence_witness :
    PostService.likePost likedOnceDB 7 1 = (Except.error PostError.alreadyLiked, likedOnceDB)
    ∧ PostService.unlikePost likedOnceDB 8 1 = (Except.error PostError.notLiked, likedOnceDB) :=
  ⟨(c2_error_idempotence likedOnceDB 7 1 (by decide)).1 (by decide),
   (c2_error_idempotence likedOnceDB 8 1 (by decide)).2 (by decide)⟩

/-- C6 counterexample: with the `user_like` cache key present but an empty
Like collection (so an insert of the like could not possibly violate the
unique index), the caching layer still answers `AlreadyLiked` from its cache
pre-read — the uniqueness violation is not the sole signal. -/
theorem c6_counterexample :
    (RedisPostService.likePost (Except.ok true)
        ({ posts := [{ id := 1, categoryId := 1, likeCount := 0, score := 0, createdAt := 0 }],
           categories := [{ id := 1, isActive := true }],
           likes := [] } : DBState ℚ) 7 1).1 = Except.error PostError.alreadyLiked := by
  rfl

/-- C6 as amended: for an existing post, the `AlreadyLiked` outcome is
determined by the `user_like` cache-key pre-read of the caching layer or by
the `Like.findOne` pre-read inside the transaction (the duplicate-key
uniqueness violation serves as the signal only in the non-transactional
fallback branch), and the outcome always aborts with the store unchanged. -/
theorem c6_already_liked_signals {σ : Type} (db : DBState σ) (u p : ℕ)
    (cacheCheck : Except Unit Bool) (hpost : (findPost db p).isSome) :
    ((RedisPostService.likePost cacheCheck db u p).1 = Except.error PostError.alreadyLiked
      ↔ cacheCheck = Except.ok true ∨ (u, p) ∈ db.likes)
    ∧ ((RedisPostService.likePost cacheCheck db u p).1 = Except.error PostError.alreadyLiked →
        (RedisPostService.likePost cacheCheck db u p).2 = db) := by
  obtain ⟨q, hq⟩ := Option.isSome_iff_exists.1 hpost
  match cacheCheck with
  | Except.ok true =>
    constructor
    · simp [RedisPostService.likePost]
    · intro _
      rfl
  | Except.ok false =>
    by_cases hmem : (u, p) ∈ db.likes
    · constructor
      · simp [RedisPostService.likePost, PostService.likePost, hq, hmem]
      · intro _
        simp [RedisPostService.likePost, PostService.likePost, hq, hmem]
    · constructor
      · simp [RedisPostService.likePost, PostService.likePost, hq, hmem]
      · intro h
        simp [RedisPostService.likePost, PostService.likePost, hq, hmem] at h
  | Except.error e =>
    by_cases hmem : (u, p) ∈ db.likes
    · constructor
      · simp [RedisPostService.likePost, PostService.likePost, hq, hmem]
      · intro _
        simp [RedisPostService.likePost, PostService.likePost, hq, hmem]
    · constructor
      · simp [RedisPostService.likePost, PostService.likePost, hq, hmem]
      · intro h
        simp [RedisPostService.likePost, PostService.likePost, hq, hmem] at h

/-- Witness for C6 on `likedOnceDB` with an absent cache key: the pre-read of
the Like collection yields `AlreadyLiked`. -/
theorem c6_already_liked_signals_witness :
    (RedisPostService.likePost (Except.ok false) likedOnceDB 7 1).1
      = Except.error PostError.alreadyLiked :=
  (c6_already_liked_signals likedOnceDB 7 1 (Except.ok false) (by decide)).1.mpr
    (Or.inr (by decide))

/-- C7 counterexample: a NaN `likeCount` is not treated as 0 —
`Math.max(0, NaN)` is NaN, which propagates through `log10` and the final
sum, so the returned score differs from the score at `likeCount = 0`. -/
theorem c7_counterexample :
    calculateScore JSNum.nan 0 0 DEFAULT_SCORING_CONFIG
      ≠ calculateScore (JSNum.finite 0) 0 0 DEFAULT_SCORING_CONFIG := by
  norm_num [calculateScore, calculateRelevanceScore, DEFAULT_SCORING_CONFIG, JSNum.max0,
    JSNum.add, JSNum.log10, JSNum.mul]
  exact fun h => JSNum.noConfusion h

/-- C7 as amended: a negative `likeCount` is sanitized to 0 (the score equals
the score of the same post with `likeCount = 0`), but the non-finite inputs
are not sanitized: a NaN `likeCount` yields a NaN score and a +Infinity
`likeCount` yields a +Infinity score, under every algorithm. -/
theorem c7_sanitization (x : ℝ) (hx : x < 0) (createdAtMs nowMs : ℝ) (config : ScoringConfig) :
    calculateScore (JSNum.finite x) createdAtMs nowMs config
        = calculateScore (JSNum.finite 0) createdAtMs nowMs config
    ∧ calculateScore JSNum.nan createdAtMs nowMs config = JSNum.nan
    ∧ calculateScore JSNum.posInf createdAtMs nowMs config = JSNum.posInf := by
  refine ⟨?_, ?_, ?_⟩
  · have hmax : max (0 : ℝ) x = 0 := max_eq_left hx.le
    simp [calculateScore, calculateRelevanceScore, JSNum.max0, hmax]
  · cases halg : config.algorithm <;>
      simp [calculateScore, calculateRelevanceScore, halg, JSNum.max0, JSNum.add,
        JSNum.log10, JSNum.mul, JSNum.sqrt]
  · cases halg : config.algorithm <;>
      norm_num [calculateScore, calculateRelevanceScore, halg, JSNum.max0, JSNum.add,
        JSNum.log10, JSNum.mul, JSNum.sqrt]

/-- Witness for C7 at `likeCount = -1` (and the NaN / +Infinity inputs). -/
theorem c7_sanitization_witness :
    calculateScore (JSNum.finite (-1)) 0 0 DEFAULT_SCORING_CONFIG
        = calculateScore (JSNum.finite 0) 0 0 DEFAULT_SCORING_CONFIG
    ∧ calculateScore JSNum.nan 0 0 DEFAULT_SCORING_CONFIG = JSNum.nan
    ∧ calculateScore JSNum.posInf 0 0 DEFAULT_SCORING_CONFIG = JSNum.posInf :=
  c7_sanitization (-1) neg_one_lt_zero 0 0 DEFAULT_SCORING_CONFIG

theorem calculateScore_logarithmic_eval (l : ℕ) (createdAtMs nowMs : ℝ)
    (config : ScoringConfig) (halg : config.algorithm = ScoringAlgorithm.logarithmic) :
    calculateScore (JSNum.finite l) createdAtMs nowMs config
      = JSNum.finite (Real.logb 10 (l + 1)
          + config.freshnessWeight
            * calculateFreshnessScore ((nowMs - createdAtMs) / (1000 * 60 * 60))
                config.maxAgeHours) := by
  have hmax : max (0 : ℝ) (l : ℝ) = l := max_eq_right (Nat.cast_nonneg l)
  have hpos : (0 : ℝ) < (l : ℝ) + 1 := by positivity
  simp [calculateScore, calculateRelevanceScore, halg, JSNum.max0, JSNum.add, JSNum.log10,
    JSNum.mul, hmax, not_lt.2 hpos.le, hpos.ne']

/-- C8: under the logarithmic (BASE) algorithm, with the same `createdAt` and
the same `now`, the score is strictly increasing in the (non-negative) like
count. -/
theorem c8_monotone_in_likes (l1 l2 : ℕ) (h : l1 < l2) (createdAtMs nowMs : ℝ)
    (config : ScoringConfig) (halg : config.algorithm = ScoringAlgorithm.logarithmic) :
    JSNum.lt (calculateScore (JSNum.finite l1) createdAtMs nowMs config)
      (calculateScore (JSNum.finite l2) createdAtMs nowMs config) := by
  rw [calculateScore_logarithmic_eval l1 createdAtMs nowMs config halg,
    calculateScore_logarithmic_eval l2 createdAtMs nowMs config halg]
  show Real.logb 10 (l1 + 1) + _ < Real.logb 10 (l2 + 1) + _
  have hlog : Real.logb 10 (l1 + 1) < Real.logb 10 (l2 + 1) := by
    apply Real.logb_lt_logb (by norm_num) (by positivity)
    have : (l1 : ℝ) < l2 := by exact_mod_cast h
    linarith
  linarith

/-- Witness for C8 at like counts 0 < 1 (same timestamps, default config). -/
theorem c8_monotone_in_likes_witness :
    JSNum.lt (calculateScore (JSNum.finite (0 : ℕ)) 0 0 DEFAULT_SCORING_CONFIG)
      (calculateScore (JSNum.finite (1 : ℕ)) 0 0 DEFAULT_SCORING_CONFIG) :=
  c8_monotone_in_likes 0 1 (by decide) 0 0 DEFAULT_SCORING_CONFIG rfl

/-- C1 (code bug): on the failing input `staleScoreDB` (post id 1, zero
likes, persisted score = Score Model output for likeCount 0), `likePost`
succeeds and commits `likeCount = 1`, yet the persisted `score` is still the
model's output for likeCount 0 — which differs from the model's output for
the updated likeCount 1.  The `$inc` update of `findByIdAndUpdate` bypasses
the `pre('save')` score hook, so the committed score is stale relative to the
committed likeCount change. -/
theorem c1_like_score_stale :
    (∃ res, (PostService.likePost staleScoreDB 9 1).1 = Except.ok res ∧ res.likeCount = 1)
    ∧ findPost (PostService.likePost staleScoreDB 9 1).2 1
        = some { id := 1, categoryId := 1, likeCount := 1
                 score := (calculateScore (JSNum.finite 0) 0 0 DEFAULT_SCORING_CONFIG).toReal
                 createdAt := 0 }
    ∧ (calculateScore (JSNum.finite 0) 0 0 DEFAULT_SCORING_CONFIG).toReal
        ≠ (calculateScore (JSNum.finite 1) 0 0 DEFAULT_SCORING_CONFIG).toReal := by
  refine ⟨?_, ?_, ?_⟩
  · refine ⟨{ liked := true, likeCount := 1
              post := some { id := 1, categoryId := 1, likeCount := 1
                             score := (calculateScore (JSNum.finite 0) 0 0
                               DEFAULT_SCORING_CONFIG).toReal
                             createdAt := 0 } }, ?_, rfl⟩
    norm_num [PostService.likePost, staleScoreDB, findPost, incLikeCount]
  · norm_num [PostService.likePost, staleScoreDB, findPost, incLikeCount]
  · have e0 := calculateScore_logarithmic_eval 0 0 0 DEFAULT_SCORING_CONFIG rfl
    have e1 := calculateScore_logarithmic_eval 1 0 0 DEFAULT_SCORING_CONFIG rfl
    norm_num at e0 e1
    rw [e0, e1]
    simp only [JSNum.toReal]
    have hlog1 : Real.logb 10 1 = 0 := Real.logb_one
    have hlog2 : 0 < Real.logb 10 2 := Real.logb_pos (by norm_num) (by norm_num)
    intro heq
    linarith

/-- C5 counterexample: when only the version-counter read fails, the read
proceeds under the defaulted version 1 and can serve a version-1 cache hit —
here the returned page is the stale cached window `[cachedPost]`, not the
direct authoritative-store result `[storedPost]`. -/
theorem c5_counterexample :
    versionFailOracle.versionRead = Except.error ()
    ∧ (RedisPostService.getCachedPosts versionFailOracle cacheMismatchDB {} {}).posts
        = [cachedPost]
    ∧ (PostService.getPosts cacheMismatchDB {} {}).posts = [storedPost]
    ∧ cachedPost ≠ storedPost := by
  refine ⟨rfl, by decide, by decide, by decide⟩

/-- C5 as amended: a feed read never propagates a cache failure.  A failed
cache get falls back to the direct store query; a failed cache put (after a
miss or unservable hit) falls back to the direct store query; a failed
version-counter read merely defaults the version to 1 and the read continues
(so its result is whatever the version-1 cache key serves, not necessarily
the direct store result); a failed ranking-set read in the hybrid first page
falls back to the direct store query. -/
theorem c5_cache_fallback {σ : Type} [LinearOrder σ]
    (o o' : RedisPostService.RedisOracle σ) (db : DBState σ) (filters : PostFilters)
    (pagination : PaginationOptions) :
    (o.cacheGet (RedisPostService.getFeedVersion o) = Except.error () →
        RedisPostService.getCachedPosts o db filters pagination
          = PostService.getPosts db filters pagination)
    ∧ (∀ c, o.cacheGet (RedisPostService.getFeedVersion o) = Except.ok c →
        RedisPostService.cacheSlice c filters pagination = none →
        o.cachePut = Except.error () →
        RedisPostService.getCachedPosts o db filters pagination
          = PostService.getPosts db filters pagination)
    ∧ (o.versionRead = Except.error () →
        o'.versionRead = Except.ok (some 1) →
        o'.cacheGet = o.cacheGet →
        o'.cachePut = o.cachePut →
        RedisPostService.getCachedPosts o db filters pagination
          = RedisPostService.getCachedPosts o' db filters pagination)
    ∧ RedisPostService.getHybridFirstPage (Except.error ()) db filters pagination
        = PostService.getPosts db filters pagination := by
  refine ⟨?_, ?_, ?_, rfl⟩
  · intro h
    simp [RedisPostService.getCachedPosts, h]
  · intro c hget hslice hput
    simp [RedisPostService.getCachedPosts, hget, hslice, hput]
  · intro hv hv' hg hp
    have hver : RedisPostService.getFeedVersion o = RedisPostService.getFeedVersion o' := by
      simp [RedisPostService.getFeedVersion, hv, hv']
    simp [RedisPostService.getCachedPosts, hver, hg, hp]

/-- Witness for C5: with a rejecting cache read, the cached-path feed read
equals the direct store query. -/
theorem c5_cache_fallback_witness :
    RedisPostService.getCachedPosts cacheGetFailOracle cacheMismatchDB {} {}
      = PostService.getPosts cacheMismatchDB {} {} :=
  (c5_cache_fallback cacheGetFailOracle cacheGetFailOracle cacheMismatchDB {} {}).1 rfl

theorem filter_mem_length_le {σ : Type} (l : List (Post σ)) (ex : List ℕ)
    (hnd : (l.map Post.id).Nodup) :
    (l.filter (fun p => decide (p.id ∈ ex))).length ≤ ex.length := by
  have hsub : (l.filter (fun p => decide (p.id ∈ ex))).map Post.id ⊆ ex := by
    intro i hi
    obtain ⟨p, hp, hpe⟩ := List.mem_map.1 hi
    have hdec := List.of_mem_filter hp
    exact hpe ▸ of_decide_eq_true hdec
  have hndd : ((l.filter (fun p => decide (p.id ∈ ex))).map Post.id).Nodup :=
    List.Nodup.sublist (List.Sublist.map Post.id (List.filter_sublist l)) hnd
  calc (l.filter (fun p => decide (p.id ∈ ex))).length
      = ((l.filter (fun p => decide (p.id ∈ ex))).map Post.id).length :=
        (List.length_map _ _).symm
    _ = ((l.filter (fun p => decide (p.id ∈ ex))).map Post.id).toFinset.card :=
        (List.toFinset_card_of_nodup hndd).symm
    _ ≤ ex.toFinset.card := by
        apply Finset.card_le_card
        intro i hi
        exact List.mem_toFinset.2 (hsub (List.mem_toFinset.1 hi))
    _ ≤ ex.length := List.toFinset_card_le ex

theorem length_le_filter_not_mem {σ : Type} (l : List (Post σ)) (ex : List ℕ)
    (hnd : (l.map Post.id).Nodup) :
    l.length ≤ (l.filter (fun p => decide (p.id ∉ ex))).length + ex.length := by
  have hsplit := List.length_eq_length_filter_add (l := l) (fun p => decide (p.id ∈ ex))
  have hcong : l.filter (fun p => !(decide (p.id ∈ ex))) =
      l.filter (fun p => decide (p.id ∉ ex)) := by
    apply List.filter_congr
    intro p _
    simp [decide_not]
  rw [hcong] at hsplit
  have hle := filter_mem_length_le l ex hnd
  omega

theorem mem_populateHotPosts {σ : Type} (db : DBState σ) (ids : List ℕ) (q : Post σ) :
    q ∈ RedisPostService.populateHotPosts db ids → q.id ∈ ids := by
  intro h
  obtain ⟨i, hi, hfind⟩ := List.mem_filterMap.1 h
  have hdec := List.find?_some hfind
  have hid : q.id = i := by simpa using hdec
  exact hid ▸ hi

theorem populateHotPosts_map_id {σ : Type} (db : DBState σ) (ids : List ℕ)
    (hall : ∀ i ∈ ids, (db.posts.find? (fun p => p.id = i)).isSome) :
    (RedisPostService.populateHotPosts db ids).map Post.id = ids := by
  induction ids with
  | nil => rfl
  | cons i rest ih =>
    obtain ⟨q, hq⟩ := Option.isSome_iff_exists.1 (hall i (List.mem_cons_self i rest))
    have hdec := List.find?_some hq
    have hqid : q.id = i := by simpa using hdec
    simp only [RedisPostService.populateHotPosts, List.filterMap_cons, hq, List.map_cons]
    rw [hqid]
    exact congrArg (i :: ·) (ih (fun j hj => hall j (List.mem_cons_of_mem i hj)))

/-- C4: on a hybrid first page where the ranking set returned fewer
identities than the effective page size, the assembled page is exactly the
hydrated ranking-sourced posts (in ranking order) followed by the
store-sourced posts; every store-sourced post's identity is excluded from the
ranking identities (and every ranking-sourced post's identity is one of
them), so no identity appears in both parts.  In the 20/5 scenario (page size
20, five ranked identities all present in a store that can serve ≥ 20
id-distinct posts), the page is those 5 plus exactly 15 store-sourced posts,
20 in total. -/
theorem c4_hybrid_page {σ : Type} [LinearOrder σ] (db : DBState σ) (hotIds : List ℕ)
    (filters : PostFilters) (pagination : PaginationOptions)
    (h : (hotIds.length : ℤ) < hybridEffectiveLimit pagination.limit) :
    (RedisPostService.getHybridFirstPage (Except.ok hotIds) db filters pagination).posts
        = RedisPostService.populateHotPosts db hotIds
          ++ (RedisPostService.getRegularPosts db filters
                (hybridEffectiveLimit pagination.limit - hotIds.length) hotIds).posts
    ∧ (∀ q ∈ (RedisPostService.getRegularPosts db filters
          (hybridEffectiveLimit pagination.limit - hotIds.length) hotIds).posts,
        q.id ∉ hotIds)
    ∧ (∀ q ∈ RedisPostService.populateHotPosts db hotIds, q.id ∈ hotIds)
    ∧ (hybridEffectiveLimit pagination.limit = 20 → hotIds.length = 5 →
        (∀ i ∈ hotIds, (db.posts.find? (fun p => p.id = i)).isSome) →
        20 ≤ (PostService.getPosts db filters
            { page := some 1, limit := some 30, offset := none }).posts.length →
        ((PostService.getPosts db filters
            { page := some 1, limit := some 30, offset := none }).posts.map Post.id).Nodup →
        (RedisPostService.populateHotPosts db hotIds).length = 5
        ∧ (RedisPostService.getRegularPosts db filters
            (hybridEffectiveLimit pagination.limit - hotIds.length) hotIds).posts.length = 15
        ∧ (RedisPostService.getHybridFirstPage (Except.ok hotIds) db filters
            pagination).posts.length = 20) := by
  have hnot : ¬ (hybridEffectiveLimit pagination.limit ≤ (hotIds.length : ℤ)) := not_le.2 h
  have hA : (RedisPostService.getHybridFirstPage (Except.ok hotIds) db filters pagination).posts
      = RedisPostService.populateHotPosts db hotIds
        ++ (RedisPostService.getRegularPosts db filters
              (hybridEffectiveLimit pagination.limit - hotIds.length) hotIds).posts := by
    simp only [RedisPostService.getHybridFirstPage, hnot, if_false]
    rfl
  have hB : ∀ q ∈ (RedisPostService.getRegularPosts db filters
      (hybridEffectiveLimit pagination.limit - hotIds.length) hotIds).posts, q.id ∉ hotIds := by
    intro q hq
    simp only [RedisPostService.getRegularPosts] at hq
    have hq' := List.mem_filter.1 (List.take_subset _ _ hq)
    exact of_decide_eq_true hq'.2
  refine ⟨hA, hB, fun q hq => mem_populateHotPosts db hotIds q hq, ?_⟩
  intro hlim hlen hall hstore hnodup
  have hpop : (RedisPostService.populateHotPosts db hotIds).map Post.id = hotIds :=
    populateHotPosts_map_id db hotIds hall
  have hpoplen : (RedisPostService.populateHotPosts db hotIds).length = 5 := by
    have := congrArg List.length hpop
    rw [List.length_map] at this
    rw [this, hlen]
  have hreglen : (RedisPostService.getRegularPosts db filters
      (hybridEffectiveLimit pagination.limit - hotIds.length) hotIds).posts.length = 15 := by
    rw [hlim, hlen]
    have h2 : ((20 : ℤ) - (5 : ℕ)) = 15 := by norm_num
    rw [h2]
    simp only [RedisPostService.getRegularPosts]
    have h3 : ((15 : ℤ) * 2) = 30 := by norm_num
    rw [h3]
    rw [List.length_take]
    have hcount := length_le_filter_not_mem
       (PostService.getPosts db filters
         { page := some 1, limit := some 30, offset := none }).posts hotIds hnodup
    have h4 : ((15 : ℤ)).toNat = 15 := rfl
    rw [h4]
    omega
  refine ⟨hpoplen, hreglen, ?_⟩
  rw [hA, List.length_append, hpoplen, hreglen]

/-- Witness for C4: the concrete 20/5 scenario (25 store posts, ranked ids
21..25, default filters and pagination) yields 5 ranking-sourced posts, 15
store-sourced posts, a 20-item page. -/
theorem c4_hybrid_page_witness :
    (RedisPostService.populateHotPosts hybridScenarioDB hybridScenarioHotIds).length = 5
    ∧ (RedisPostService.getRegularPosts hybridScenarioDB {}
        (hybridEffectiveLimit ({} : PaginationOptions).limit - hybridScenarioHotIds.length)
        hybridScenarioHotIds).posts.length = 15
    ∧ (RedisPostService.getHybridFirstPage (Except.ok hybridScenarioHotIds) hybridScenarioDB
        {} {}).posts.length = 20 :=
  (c4_hybrid_page hybridScenarioDB hybridScenarioHotIds {} {} (by decide)).2.2.2
    (by decide) (by decide) (by decide) (by decide) (by decide)
